import Mathlib

/-!
Verification of the file-store-mcp repository: a shallow embedding of the
storage backend router, key formatter, content-type resolver, path validator,
clipboard resolvers and the MCP tool handlers, with theorems settling the
frozen claims about them.

Strings are modelled as `List Char` (`Str`); Go standard-library helpers used
by the code (strings.ReplaceAll, strings.Split, strings.TrimSpace,
filepath.Ext, ...) are given executable models below. Nondeterministic or
external effects (clock, UUID generation, SDK calls, the filesystem, the
clipboard) are passed in explicitly as parameters or environment records.
-/

namespace FSMcp

/-- Strings are lists of characters. -/
abbrev Str := List Char

/-- Conversion from Lean string literals. -/
def str (s : String) : Str := s.data

/-- Model of Go strings.ToLower at ASCII granularity (the discriminators the
router compares against are all ASCII). -/
def toLower (s : Str) : Str := s.map Char.toLower

/-- ASCII whitespace, modelling unicode.IsSpace on the ASCII range. -/
def isSpaceChar (c : Char) : Bool :=
  c = ' ' || c = '\t' || c = '\n' || c = '\x0d' || c = '\x0b' || c = '\x0c'

/-- Model of Go strings.TrimSpace (ASCII whitespace). -/
def trimSpace (s : Str) : Str :=
  ((s.dropWhile isSpaceChar).reverse.dropWhile isSpaceChar).reverse

/-- Fuel-driven core of `replaceAll`; fuel `s.length` suffices for a non-empty
pattern because every step consumes at least one character. -/
def replaceAllAux (pat rep : Str) : Nat → Str → Str
  | 0, s => s
  | _ + 1, [] => []
  | fuel + 1, c :: rest =>
    if pat.isPrefixOf (c :: rest) then
      rep ++ replaceAllAux pat rep fuel ((c :: rest).drop pat.length)
    else
      c :: replaceAllAux pat rep fuel rest

/-- Model of Go strings.ReplaceAll for the non-empty patterns the code uses
(leftmost, non-overlapping). All call sites in the repository pass non-empty
literal patterns; for an empty pattern we return the string unchanged. -/
def replaceAll (s pat rep : Str) : Str :=
  if pat = [] then s else replaceAllAux pat rep s.length s

/-- Whether `pat` occurs as a contiguous substring of the second argument. -/
def containsSub (pat : Str) : Str → Bool
  | [] => pat.isEmpty
  | c :: rest => pat.isPrefixOf (c :: rest) || containsSub pat rest

/-- Model of Go strings.Split on a single-character separator. -/
def splitChar (c : Char) : Str → List Str
  | [] => [[]]
  | a :: rest =>
    match splitChar c rest with
    | [] => [[]]
    | h :: t => if a = c then [] :: h :: t else (a :: h) :: t

/-- Fuel-driven core of `splitSub`. -/
def splitSubAux (sep : Str) : Nat → Str → List Str
  | 0, s => [s]
  | fuel + 1, s =>
    match s with
    | [] => [[]]
    | c :: rest =>
      if sep.isPrefixOf s then
        [] :: splitSubAux sep fuel (s.drop sep.length)
      else
        match splitSubAux sep fuel rest with
        | [] => [[c]]
        | h :: t => (c :: h) :: t

/-- Model of Go strings.Split on a (non-empty) multi-character separator. -/
def splitSub (s sep : Str) : List Str :=
  if sep = [] then [s] else splitSubAux sep s.length s

/-- Model of Go path/filepath.Ext on Unix: the suffix beginning at the final
dot in the final slash-separated element; empty if there is no such dot. -/
def goExt : Str → Str
  | [] => []
  | c :: rest =>
    let e := goExt rest
    if e ≠ [] then e
    else if c = '.' && !(rest.contains '/') then c :: rest
    else []

/-- Model of Go strings.TrimSuffix. -/
def trimSuffix (s suffix : Str) : Str :=
  if suffix.isSuffixOf s then s.take (s.length - suffix.length) else s

/-- Model of Go strings.TrimPrefix. -/
def trimPrefixStr (s p : Str) : Str :=
  if p.isPrefixOf s then s.drop p.length else s

/-- Decimal rendering of a natural number, for the `%d` format verbs. -/
def natToStr (n : Nat) : Str := Nat.toDigits 10 n

/-! ## Storage backend configurations and clients
(internal/storage/s3/s3.go, oss/oss.go, cos/cos.go, qiniu/kodo.go,
github/github.go, empty/empty.go) -/

/-- S3Config (s3.go). URL expiration is kept in seconds. -/
structure S3Config where
  bucketName : Str
  region : Str
  endpoint : Str
  accessKeyID : Str
  secretKey : Str
  session : Str
  urlExpiration : Int
deriving DecidableEq

/-- S3Client (s3.go); the SDK client handle itself is external state and is
not part of the observable record. -/
structure S3Client where
  bucketName : Str
  region : Str
  endpoint : Str
  accessKey : Str
  secretKey : Str
  expiration : Int
deriving DecidableEq

/-- NewS3Client (s3.go). The only failure path is the external
config.LoadDefaultConfig call, passed in as `sdkLoadErr`; none of the
config fields are validated. -/
def NewS3Client (sdkLoadErr : Option Str) (cfg : S3Config) : Except Str S3Client :=
  match sdkLoadErr with
  | some e => .error (str "failed to load AWS SDK configuration: " ++ e)
  | none =>
    .ok { bucketName := cfg.bucketName, region := cfg.region,
          endpoint := cfg.endpoint, accessKey := cfg.accessKeyID,
          secretKey := cfg.secretKey,
          expiration := if cfg.urlExpiration > 0 then cfg.urlExpiration else 604800 }

/-- OSSConfig (oss.go). -/
structure OSSConfig where
  endpoint : Str
  accessKeyID : Str
  accessKeySecret : Str
  bucketName : Str
  domain : Str
  urlExpiration : Int
deriving DecidableEq

/-- OSSClient (oss.go). -/
structure OSSClient where
  bucketName : Str
  endpoint : Str
  domain : Str
  expiration : Int
deriving DecidableEq

/-- NewOSSClient (oss.go). The two failure paths are the external oss.New and
client.Bucket SDK calls. -/
def NewOSSClient (newErr bucketErr : Option Str) (cfg : OSSConfig) : Except Str OSSClient :=
  match newErr with
  | some e => .error (str "failed to create OSS client: " ++ e)
  | none =>
    match bucketErr with
    | some e => .error (str "failed to get OSS bucket: " ++ e)
    | none =>
      .ok { bucketName := cfg.bucketName, endpoint := cfg.endpoint,
            domain := cfg.domain,
            expiration := if cfg.urlExpiration > 0 then cfg.urlExpiration else 604800 }

/-- COSConfig (cos.go). -/
structure COSConfig where
  bucketName : Str
  region : Str
  appID : Str
  secretID : Str
  secretKey : Str
  domain : Str
  useHTTPS : Bool
  useAccelerate : Bool
  urlExpiration : Int
deriving DecidableEq

/-- COSClient (cos.go). -/
structure COSClient where
  bucketName : Str
  region : Str
  appID : Str
  domain : Str
  secretID : Str
  secretKey : Str
  expiration : Int
deriving DecidableEq

/-- NewCOSClient (cos.go). The only failure path is the external url.Parse of
the bucket URL. -/
def NewCOSClient (parseErr : Option Str) (cfg : COSConfig) : Except Str COSClient :=
  match parseErr with
  | some e => .error (str "failed to parse COS service URL: " ++ e)
  | none =>
    .ok { bucketName := cfg.bucketName, region := cfg.region, appID := cfg.appID,
          domain := cfg.domain, secretID := cfg.secretID, secretKey := cfg.secretKey,
          expiration := if cfg.urlExpiration > 0 then cfg.urlExpiration else 604800 }

/-- QiniuConfig (kodo.go). -/
structure QiniuConfig where
  accessKey : Str
  secretKey : Str
  bucketName : Str
  domain : Str
  region : Str
  urlExpiration : Int
deriving DecidableEq

/-- QiniuClient (kodo.go). -/
structure QiniuClient where
  accessKey : Str
  secretKey : Str
  bucketName : Str
  domain : Str
  region : Str
  expiration : Int
deriving DecidableEq

/-- NewQiniuClient (kodo.go): pure field validation followed by domain
normalization. Go's `domain[0:4]` panics when the stripped domain has one to
three characters; the model uses `take 4` there (no claim touches that case). -/
def NewQiniuClient (cfg : QiniuConfig) : Except Str QiniuClient :=
  if cfg.accessKey = [] ∨ cfg.secretKey = [] then
    .error (str "AccessKey and SecretKey cannot be empty")
  else if cfg.bucketName = [] then
    .error (str "BucketName cannot be empty")
  else if cfg.domain = [] then
    .error (str "domain cannot be empty, Qiniu requires a custom domain for access")
  else
    let d1 := if cfg.domain.getLast? = some '/' then cfg.domain.dropLast else cfg.domain
    let d2 := if d1 ≠ [] && d1.take 4 ≠ str "http" then str "http://" ++ d1 else d1
    .ok { accessKey := cfg.accessKey, secretKey := cfg.secretKey,
          bucketName := cfg.bucketName, domain := d2, region := cfg.region,
          expiration := if cfg.urlExpiration > 0 then cfg.urlExpiration else 604800 }

/-- GitHubConfig (github.go). -/
structure GitHubConfig where
  token : Str
  owner : Str
  repo : Str
  branch : Str
  path : Str
  customDomain : Str
deriving DecidableEq

/-- GitHubClient (github.go). -/
structure GitHubClient where
  token : Str
  owner : Str
  repo : Str
  branch : Str
  path : Str
  customDomain : Str
deriving DecidableEq

/-- NewGitHubClient (github.go): pure field validation with defaulting. -/
def NewGitHubClient (cfg : GitHubConfig) : Except Str GitHubClient :=
  if cfg.token = [] then
    .error (str "GitHub access token cannot be empty")
  else if cfg.owner = [] ∨ cfg.repo = [] then
    .error (str "repository owner and name cannot be empty")
  else
    let branch := if cfg.branch = [] then str "main" else cfg.branch
    let path :=
      if cfg.path ≠ [] && !((str "/").isSuffixOf cfg.path) then cfg.path ++ str "/"
      else cfg.path
    .ok { token := cfg.token, owner := cfg.owner, repo := cfg.repo,
          branch := branch, path := path, customDomain := cfg.customDomain }

/-- EmptyStorage (empty/empty.go). -/
structure EmptyStorage where
  info : Str
deriving DecidableEq

/-- EmptyStorage.UploadFile (empty/empty.go): always an error embedding the
stored diagnostic text. -/
def EmptyStorage.uploadFile (e : EmptyStorage) (_path _filename : Str) : Except Str Str :=
  .error (str "storage service not configured or initialization failed. " ++ e.info)

/-- EmptyStorage.Upload (empty/empty.go): always the same error. -/
def EmptyStorage.upload (e : EmptyStorage) (_filename : Str) : Except Str Str :=
  .error (str "storage service not configured or initialization failed. " ++ e.info)

/-! ## Storage router (internal/storage/interface.go) -/

/-- The selected backend: one concrete client, or the Empty fallback holding
its diagnostic string. -/
inductive Storage where
  | empty (info : Str)
  | s3 (client : S3Client)
  | oss (client : OSSClient)
  | cos (client : COSClient)
  | qiniu (client : QiniuClient)
  | github (client : GitHubClient)
deriving DecidableEq

/-- Config (interface.go): the discriminator plus every backend's own
parameter set. -/
structure Config where
  storageType : Str
  s3 : S3Config
  oss : OSSConfig
  cos : COSConfig
  qiniu : QiniuConfig
  github : GitHubConfig

/-- Outcomes of the external SDK calls made during backend construction. -/
structure SdkEnv where
  s3LoadErr : Option Str
  ossNewErr : Option Str
  ossBucketErr : Option Str
  cosParseErr : Option Str

/-- initS3StorageWithConfig (interface.go). -/
def initS3StorageWithConfig (sdkLoadErr : Option Str) (cfg : S3Config) : Storage :=
  match NewS3Client sdkLoadErr cfg with
  | .error e => .empty e
  | .ok c => .s3 c

/-- initOSSStorageWithConfig (interface.go). -/
def initOSSStorageWithConfig (newErr bucketErr : Option Str) (cfg : OSSConfig) : Storage :=
  match NewOSSClient newErr bucketErr cfg with
  | .error e => .empty e
  | .ok c => .oss c

/-- initCOSStorageWithConfig (interface.go). -/
def initCOSStorageWithConfig (parseErr : Option Str) (cfg : COSConfig) : Storage :=
  match NewCOSClient parseErr cfg with
  | .error e => .empty e
  | .ok c => .cos c

/-- initQiniuStorageWithConfig (interface.go). -/
def initQiniuStorageWithConfig (cfg : QiniuConfig) : Storage :=
  match NewQiniuClient cfg with
  | .error e => .empty e
  | .ok c => .qiniu c

/-- initGitHubStorageWithConfig (interface.go). -/
def initGitHubStorageWithConfig (cfg : GitHubConfig) : Storage :=
  match NewGitHubClient cfg with
  | .error e => .empty e
  | .ok c => .github c

/-- NewStorage (interface.go): case-insensitive switch over the discriminator;
the explicit "empty" case and the default case both build `empty.New("")`. -/
def NewStorage (env : SdkEnv) (config : Config) : Storage :=
  let t := toLower config.storageType
  if t = str "s3" then initS3StorageWithConfig env.s3LoadErr config.s3
  else if t = str "oss" then initOSSStorageWithConfig env.ossNewErr env.ossBucketErr config.oss
  else if t = str "cos" then initCOSStorageWithConfig env.cosParseErr config.cos
  else if t = str "qiniu" then initQiniuStorageWithConfig config.qiniu
  else if t = str "github" then initGitHubStorageWithConfig config.github
  else .empty []

/-! ## Key formatter and content-type resolver
(FormatObjectKey in internal/storage/service.go, GetContentType in
pkg/util/util.go) -/

/-- FormatObjectKey (service.go). The per-call timestamp, UUID and 6-character
random string are computed before any replacement; here they are parameters.
The five ReplaceAll passes run sequentially in the source order. -/
def FormatObjectKey (filename format timestamp uuidStr randStr : Str) : Str :=
  if format = [] then
    timestamp ++ str "/" ++ filename
  else
    let fileExt := goExt filename
    let fileNameWithoutExt := trimSuffix filename fileExt
    let r1 := replaceAll format (str "{filename}") fileNameWithoutExt
    let r2 := replaceAll r1 (str "{ext}") fileExt
    let r3 := replaceAll r2 (str "{timestamp}") timestamp
    let r4 := replaceAll r3 (str "{uuid}") uuidStr
    let r5 := replaceAll r4 (str "{rand}") randStr
    r5

/-- GetContentType (pkg/util/util.go): a case-sensitive switch on the
extension returned by filepath.Ext. -/
def GetContentType (fileName : Str) : Str :=
  let ext := goExt fileName
  if ext = str ".jpg" ∨ ext = str ".jpeg" then str "image/jpeg"
  else if ext = str ".png" then str "image/png"
  else if ext = str ".gif" then str "image/gif"
  else if ext = str ".pdf" then str "application/pdf"
  else if ext = str ".txt" then str "text/plain"
  else if ext = str ".html" then str "text/html"
  else if ext = str ".mp4" then str "video/mp4"
  else if ext = str ".mp3" then str "audio/mpeg"
  else str "application/octet-stream"

/-! ## Path validation (Service.ValidatePaths in internal/mcp/service.go) -/

/-- Result of os.Stat. -/
structure FileInfo where
  isDir : Bool
deriving DecidableEq

/-- The filesystem as seen by ValidatePaths: filepath.Abs (which consults the
working directory and can fail) and os.Stat. -/
structure FSEnv where
  abs : Str → Except Str Str
  stat : Str → Except Str FileInfo

/-- The per-element body of the ValidatePaths loop (service.go): empty check,
filepath.Abs, os.Stat, directory check. -/
def validateOne (fs : FSEnv) (path : Str) : Except Str Str :=
  if path = [] then .error (str "path cannot be empty")
  else
    match fs.abs path with
    | .error e => .error (str "invalid path: " ++ e)
    | .ok a =>
      match fs.stat a with
      | .error e => .error (str "invalid path: " ++ e)
      | .ok info =>
        if info.isDir then .error (str "path cannot be a directory")
        else .ok a

/-- Service.ValidatePaths (service.go): the loop returns at the first error,
otherwise accumulates the absolute paths in order. -/
def ValidatePaths (fs : FSEnv) : List Str → Except Str (List Str)
  | [] => .ok []
  | p :: rest =>
    match validateOne fs p with
    | .error e => .error e
    | .ok a =>
      match ValidatePaths fs rest with
      | .error e => .error e
      | .ok as => .ok (a :: as)

/-! ## MCP tool handler: clipboard upload
(Service.handleUploadClipboardFiles in internal/mcp/service.go) -/

/-- The environment of handleUploadClipboardFiles: the outcome of
clip.GetFiles(5), the filesystem for validation, and the storage service's
per-path upload outcome. -/
structure ClipUploadWorld where
  clip : Except Str (List Str)
  fs : FSEnv
  upload : Str → Except Str Str

/-- The sequential upload loop shared by the handlers: fail-fast, first error
returned; also records which paths an upload was attempted for. -/
def uploadLoopT (up : Str → Except Str Str) : List Str → Except Str (List Str) × List Str
  | [] => (.ok [], [])
  | p :: rest =>
    match up p with
    | .error e => (.error e, [p])
    | .ok u =>
      let (r, calls) := uploadLoopT up rest
      (r.map (u :: ·), p :: calls)

/-- Rendering of the accumulated "%d: %s\n" lines, starting at index 1. -/
def renderUrls : Nat → List Str → Str
  | _, [] => []
  | i, u :: rest => natToStr i ++ str ": " ++ u ++ str "\n" ++ renderUrls (i + 1) rest

/-- Service.handleUploadClipboardFiles (service.go). Returns the textual tool
result (or error), whether ValidatePaths was reached, and the paths for which
a backend upload was attempted. -/
def handleUploadClipboardFiles (w : ClipUploadWorld) :
    Except Str Str × Bool × List Str :=
  match w.clip with
  | .error e => (.error (str "failed to get files from clipboard: " ++ e), false, [])
  | .ok paths =>
    if paths = [] then
      (.ok (str "No files found in clipboard."), false, [])
    else
      match ValidatePaths w.fs paths with
      | .error e => (.error e, true, [])
      | .ok vpaths =>
        let (r, calls) := uploadLoopT w.upload vpaths
        match r with
        | .error e => (.error e, true, calls)
        | .ok us =>
          (.ok (str "Upload " ++ natToStr vpaths.length ++
                str " files from clipboard successfully:\n" ++ renderUrls 1 us),
           true, calls)

/-! ## MCP tool handler: URL upload
(Service.handleUploadUrlFiles in internal/mcp/service.go) -/

/-- Events observable during handleUploadUrlFiles: creation of the i-th
iteration's temporary file, the start of the i-th network transfer (http.Get),
and removal of a temporary file. -/
inductive Ev where
  | created (i : Nat)
  | got (i : Nat)
  | removed (i : Nat)
deriving DecidableEq

/-- The external world of handleUploadUrlFiles, indexed by iteration:
os.CreateTemp outcome, http.Get outcome (error or HTTP status), io.Copy
outcome, and the storage upload outcome. -/
structure UrlWorld where
  createTempErr : Nat → Option Str
  getResult : Nat → Except Str Nat
  copyErr : Nat → Option Str
  uploadResult : Nat → Except Str Str

/-- The per-URL loop of handleUploadUrlFiles. `defers` holds the temporary
files whose `defer os.Remove` is pending, most recent first; Go runs all of
them when the function returns, on every exit path. The second component is
the chronological event trace up to and including the deferred removals. -/
def runUrlLoop (w : UrlWorld) : List Str → Nat → List Nat →
    Except Str (List Str) × List Ev
  | [], _, defers => (.ok [], defers.map Ev.removed)
  | url :: rest, i, defers =>
    match w.createTempErr i with
    | some e =>
      (.error (str "failed to create temp file: " ++ e), defers.map Ev.removed)
    | none =>
      let defers1 := i :: defers
      match w.getResult i with
      | .error e =>
        (.error (str "failed to download file from " ++ url ++ str ": " ++ e),
         Ev.created i :: Ev.got i :: defers1.map Ev.removed)
      | .ok status =>
        if status ≠ 200 then
          (.error (str "failed to download file from " ++ url ++
                   str ": status code " ++ natToStr status),
           Ev.created i :: Ev.got i :: defers1.map Ev.removed)
        else
          match w.copyErr i with
          | some e =>
            (.error (str "failed to save downloaded file: " ++ e),
             Ev.created i :: Ev.got i :: defers1.map Ev.removed)
          | none =>
            match w.uploadResult i with
            | .error e =>
              (.error (str "failed to upload file from " ++ url ++ str ": " ++ e),
               Ev.created i :: Ev.got i :: defers1.map Ev.removed)
            | .ok u =>
              let (r, tr) := runUrlLoop w rest (i + 1) defers1
              (r.map (u :: ·), Ev.created i :: Ev.got i :: tr)

/-- Service.handleUploadUrlFiles (service.go): empty input is an error;
otherwise the per-URL loop runs from iteration 0 with no pending defers.
The textual rendering of the success message is elided; the ok value is the
list of uploaded URLs in order. -/
def handleUploadUrlFiles (w : UrlWorld) (urls : List Str) :
    Except Str (List Str) × List Ev :=
  if urls = [] then (.error (str "urls cannot be empty"), [])
  else runUrlLoop w urls 0 []

/-- Whether, in a trace, no occurrence of `b` precedes the first occurrence of
`a` (vacuously true when `b` never occurs). -/
def precedesB (a b : Ev) : List Ev → Bool
  | [] => true
  | e :: tr => if e = b then false else if e = a then true else precedesB a b tr

/-! ## Clipboard resolver, Linux variant (pkg/clip/clip_linux.go) -/

/-- The Linux clipboard environment: the outcomes of the shell probes
(xclip/wl-paste for the URI list, xclip/xsel/wl-paste for plain text), the
home directory lookup, and existence checks for extracted paths. -/
structure LinuxClip where
  xclipUri : Except Unit Str
  wlUri : Except Unit Str
  xclipText : Except Unit Str
  xselText : Except Unit Str
  wlText : Except Unit Str
  home : Except Unit Str
  statOk : Str → Bool

/-- The chain of URL-decoding replacements applied to a file:// path
(clip_linux.go), in source order. -/
def uriDecode (p : Str) : Str :=
  let p := replaceAll p (str "%20") (str " ")
  let p := replaceAll p (str "%25") (str "%")
  let p := replaceAll p (str "%23") (str "#")
  let p := replaceAll p (str "%26") (str "&")
  let p := replaceAll p (str "%2B") (str "+")
  let p := replaceAll p (str "%2C") (str ",")
  let p := replaceAll p (str "%3A") (str ":")
  let p := replaceAll p (str "%3B") (str ";")
  let p := replaceAll p (str "%3D") (str "=")
  let p := replaceAll p (str "%3F") (str "?")
  replaceAll p (str "%40") (str "@")

/-- Extraction of local paths from a trimmed URI list (clip_linux.go): split
into lines, drop blanks and #-comments, keep file:// URIs with the prefix
stripped and the URL decoding applied. -/
def extractUriPaths (uriList : Str) : List Str :=
  (splitChar '\n' uriList).filterMap fun line =>
    let l := trimSpace line
    if l = [] || (str "#").isPrefixOf l then none
    else if (str "file://").isPrefixOf l then
      some (uriDecode (trimPrefixStr l (str "file://")))
    else none

/-- parseFilePaths (clip_linux.go): keep lines that look like rooted or
home-rooted Unix paths, expanding a leading `~` when the home directory
lookup succeeds. -/
def parseFilePathsLinux (home : Except Unit Str) (text : Str) : List Str :=
  (splitChar '\n' (replaceAll text (str "\x0d\n") (str "\n"))).filterMap fun line =>
    let l := trimSpace line
    if l = [] then none
    else if (str "/").isPrefixOf l || (str "~/").isPrefixOf l then
      if (str "~/").isPrefixOf l then
        match home with
        | .ok h => some (h ++ l.drop 1)
        | .error _ => some l
      else some l
    else none

/-- The plain-text tier of the Linux resolver: xclip, then xsel, then
wl-paste; on total failure or empty text an empty result; otherwise the path
heuristic filtered by existence. -/
def linuxTextFallback (env : LinuxClip) : List Str :=
  let textRes :=
    match env.xclipText with
    | .ok o => Except.ok o
    | .error _ =>
      match env.xselText with
      | .ok o => Except.ok o
      | .error _ => env.wlText
  match textRes with
  | .error _ => []
  | .ok output =>
    let t := trimSpace output
    if t = [] then []
    else (parseFilePathsLinux env.home t).filter env.statOk

/-- The body of the Linux GetFiles goroutine (clip_linux.go): the URI-list
tier first (xclip, then wl-paste), which is returned only when it yields at
least one file:// path; otherwise the plain-text tier. -/
def linuxBody (env : LinuxClip) : List Str :=
  let uriRes :=
    match env.xclipUri with
    | .ok o => Except.ok o
    | .error _ => env.wlUri
  match uriRes with
  | .ok output =>
    if output ≠ [] then
      let uriList := trimSpace output
      if uriList ≠ [] then
        let paths := extractUriPaths uriList
        if paths ≠ [] then paths else linuxTextFallback env
      else linuxTextFallback env
    else linuxTextFallback env
  | .error _ => linuxTextFallback env

/-- Which side of the select in GetFiles fires first: the context deadline,
or the goroutine's result delivery. -/
inductive Race where
  | deadline
  | completed
deriving DecidableEq

/-- linuxFinder.GetFiles (clip_linux.go): the goroutine result raced against
the timeout; the goroutine only ever sends to the result channel. -/
def linuxGetFiles (env : LinuxClip) (race : Race) : Except Str (List Str) :=
  match race with
  | .deadline => .error (str "获取文件路径超时")
  | .completed => .ok (linuxBody env)

/-! ## Clipboard resolver, Windows variant (pkg/clip/clip_windows.go) -/

/-- The Windows clipboard environment: outcomes of the Win32 calls and the
CF_HDROP path list, plus the plain-text content and existence checks. -/
structure WinClip where
  openOk : Bool
  hdropAvailable : Bool
  hdropHandleOk : Bool
  hdropLockOk : Bool
  hdropPaths : List Str
  textAvailable : Bool
  textHandleOk : Bool
  textLockOk : Bool
  text : Str
  statOk : Str → Bool

/-- parseFilePaths (clip_windows.go): keep lines that look like drive-rooted
or UNC paths, normalizing forward slashes to backslashes. -/
def parseFilePathsWindows (text : Str) : List Str :=
  (splitChar '\n' (replaceAll text (str "\x0d\n") (str "\n"))).filterMap fun line =>
    let l := trimSpace line
    if l = [] then none
    else if (3 ≤ l.length && l[1]? = some ':' && (l[2]? = some '\\' || l[2]? = some '/'))
            || (str "\\\\").isPrefixOf l then
      some (replaceAll l (str "/") (str "\\"))
    else none

/-- The body of the Windows GetFiles goroutine (clip_windows.go): when the
CF_HDROP format is available the call returns the file-reference paths (or an
error from the Win32 handle/lock calls) and never reaches the text tier. -/
def windowsBody (env : WinClip) : Except Str (List Str) :=
  if !env.openOk then .error (str "打开剪贴板失败")
  else if env.hdropAvailable then
    if !env.hdropHandleOk then .error (str "获取剪贴板数据失败")
    else if !env.hdropLockOk then .error (str "锁定剪贴板内存失败")
    else .ok env.hdropPaths
  else if !env.textAvailable then .ok []
  else if !env.textHandleOk then .error (str "获取剪贴板文本失败")
  else if !env.textLockOk then .error (str "锁定剪贴板内存失败")
  else if env.text = [] then .ok []
  else .ok ((parseFilePathsWindows env.text).filter env.statOk)

/-! ## Clipboard resolver, macOS AppleScript variant
(pkg/clip/clip_darwin.go) -/

/-- The macOS environment: whether the context deadline was exceeded during
cmd.Run, the osascript failure (if any) with its stderr, and its stdout. -/
structure DarwinEnv where
  runErr : Option Str
  stderrText : Str
  stdout : Str

/-- darwinAppleScriptFinder.GetFiles (clip_darwin.go): the deadline check
comes first, then the script error, then splitting of the script output on
the delimiter with blank entries filtered. -/
def darwinGetFiles (env : DarwinEnv) (deadlineExceeded : Bool) :
    Except Str (List Str) :=
  if deadlineExceeded then .error (str "查找文件超时")
  else
    match env.runErr with
    | some e =>
      .error (str "执行脚本错误: " ++ e ++ str ", stderr: " ++ env.stderrText)
    | none =>
      let output := trimSpace env.stdout
      if output = [] then .ok []
      else
        .ok (((splitSub output (str "%%%DELIMITER%%%")).map trimSpace).filter (· ≠ []))

/-! ## Object-key substitution in the upload adapters
(S3Client.UploadFile/Upload in s3.go, QiniuClient.UploadFile/Upload in
kodo.go, GitHubClient.UploadFile/Upload in github.go) -/

/-- The PutObject request attempted by the S3 adapter. -/
structure S3PutRequest where
  bucket : Str
  key : Str
  contentType : Str
deriving DecidableEq

/-- The object-key computation and PutObject request of S3Client.UploadFile
(s3.go): open the file, then substitute a fresh UUID for an empty key. The
presigned-URL step after the put is elided. -/
def S3Client.uploadFilePut (s : S3Client) (openErr : Option Str)
    (filename uuid : Str) : Except Str S3PutRequest :=
  match openErr with
  | some e => .error (str "failed to open file: " ++ e)
  | none =>
    let objectKey := if filename.length = 0 then uuid else filename
    .ok { bucket := s.bucketName, key := objectKey,
          contentType := GetContentType filename }

/-- The object-key computation and PutObject request of S3Client.Upload
(s3.go): the stream variant has no open step. -/
def S3Client.uploadPut (s : S3Client) (filename uuid : Str) : S3PutRequest :=
  let objectKey := if filename.length = 0 then uuid else filename
  { bucket := s.bucketName, key := objectKey,
    contentType := GetContentType filename }

/-- The form-upload request attempted by the Qiniu adapter. -/
structure QiniuPutRequest where
  scope : Str
  key : Str
  xName : Str
  mimeType : Str
deriving DecidableEq

/-- The object-key computation and form-upload request of
QiniuClient.UploadFile (kodo.go): substitute a fresh UUID for an empty key;
the upload policy scope is bucket:objectKey. The download-URL step is
elided. -/
def QiniuClient.uploadFilePut (q : QiniuClient) (filename uuid : Str) :
    QiniuPutRequest :=
  let objectKey := if filename.length = 0 then uuid else filename
  { scope := q.bucketName ++ str ":" ++ objectKey, key := objectKey,
    xName := filename, mimeType := GetContentType filename }

/-- The object-key computation of QiniuClient.Upload (kodo.go): identical
substitution, with the io.ReadAll of the stream as the only failure path
before the put. -/
def QiniuClient.uploadPut (q : QiniuClient) (readErr : Option Str)
    (filename uuid : Str) : Except Str QiniuPutRequest :=
  let objectKey := if filename.length = 0 then uuid else filename
  let req : QiniuPutRequest :=
    { scope := q.bucketName ++ str ":" ++ objectKey, key := objectKey,
      xName := filename, mimeType := GetContentType filename }
  match readErr with
  | some e => .error (str "failed to read data: " ++ e)
  | none => .ok req

/-- The content-creation request attempted by the GitHub adapter; the path
joining and URL building after the filename substitution are elided. -/
structure GitHubPutRequest where
  storedFilename : Str
deriving DecidableEq

/-- The stored-filename computation of GitHubClient.UploadFile (github.go):
read the file, then substitute a fresh UUID for an empty filename. -/
def GitHubClient.uploadFileReq (_g : GitHubClient) (readErr : Option Str)
    (filename uuid : Str) : Except Str GitHubPutRequest :=
  match readErr with
  | some e => .error (str "failed to read file: " ++ e)
  | none =>
    .ok { storedFilename := if filename.length = 0 then uuid else filename }

/-- The stored-filename computation of GitHubClient.Upload (github.go). -/
def GitHubClient.uploadReq (_g : GitHubClient) (readErr : Option Str)
    (filename uuid : Str) : Except Str GitHubPutRequest :=
  match readErr with
  | some e => .error (str "failed to read data: " ++ e)
  | none =>
    .ok { storedFilename := if filename.length = 0 then uuid else filename }

/-! ## Concrete instances used by the witnesses -/

/-- A configuration whose discriminator is unrecognized and whose per-backend
parameter sets are all blank. -/
def cfgUnknown : Config :=
  { storageType := str "unknown-provider",
    s3 := ⟨[], [], [], [], [], [], 0⟩,
    oss := ⟨[], [], [], [], [], 0⟩,
    cos := ⟨[], [], [], [], [], [], false, false, 0⟩,
    qiniu := ⟨[], [], [], [], [], 0⟩,
    github := ⟨[], [], [], [], [], []⟩ }

/-- SDK environment in which every external SDK call succeeds. -/
def sdkOk : SdkEnv := ⟨none, none, none, none⟩

/-! ## Theorems -/

/-- Claim C9: GetContentType matches the file extension case-sensitively
against a fixed lowercase set; any other extension (including uppercase
variants such as .PNG) yields "application/octet-stream", and the result is
never empty. -/
theorem getContentType_octet_default (fn : Str) :
    (goExt fn ∉ [str ".jpg", str ".jpeg", str ".png", str ".gif", str ".pdf",
                 str ".txt", str ".html", str ".mp4", str ".mp3"] →
      GetContentType fn = str "application/octet-stream") ∧
    GetContentType fn ≠ [] := by
  constructor
  · intro h
    simp only [List.mem_cons, List.not_mem_nil, or_false, not_or] at h
    obtain ⟨h1, h2, h3, h4, h5, h6, h7, h8, h9⟩ := h
    simp only [GetContentType]
    rw [if_neg (by exact fun hc => hc.elim h1 h2), if_neg h3, if_neg h4,
        if_neg h5, if_neg h6, if_neg h7, if_neg h8, if_neg h9]
  · simp only [GetContentType]
    split
    · decide
    split
    · decide
    split
    · decide
    split
    · decide
    split
    · decide
    split
    · decide
    split
    · decide
    split
    · decide
    · decide

/-- Witness for C9 at the uppercase extension "photo.PNG". -/
theorem getContentType_octet_default_witness :
    GetContentType (str "photo.PNG") = str "application/octet-stream" ∧
    GetContentType (str "photo.PNG") ≠ [] :=
  ⟨(getContentType_octet_default (str "photo.PNG")).1 (by decide),
   (getContentType_octet_default (str "photo.PNG")).2⟩

/-- Claim C1: a configuration whose case-folded discriminator is outside
{s3, oss, cos, qiniu, github} (in particular empty or "empty") selects the
Empty backend with an empty diagnostic string, and every Upload/UploadFile
call on an Empty backend with diagnostic reason r returns an error (never a
URL) whose text contains r. -/
theorem newStorage_default_and_empty_behavior
    (env : SdkEnv) (config : Config)
    (h : toLower config.storageType ∉
      [str "s3", str "oss", str "cos", str "qiniu", str "github"]) :
    NewStorage env config = Storage.empty [] ∧
    ∀ r path filename : Str,
      EmptyStorage.uploadFile ⟨r⟩ path filename =
        .error (str "storage service not configured or initialization failed. " ++ r) ∧
      EmptyStorage.upload ⟨r⟩ filename =
        .error (str "storage service not configured or initialization failed. " ++ r) ∧
      r <:+: str "storage service not configured or initialization failed. " ++ r := by
  constructor
  · simp only [List.mem_cons, List.not_mem_nil, or_false, not_or] at h
    obtain ⟨h1, h2, h3, h4, h5⟩ := h
    simp only [NewStorage]
    rw [if_neg h1, if_neg h2, if_neg h3, if_neg h4, if_neg h5]
  · intro r path filename
    exact ⟨rfl, rfl, (List.suffix_append _ r).isInfix⟩

/-- Witness for C1 at the discriminator "unknown-provider". -/
theorem newStorage_default_and_empty_behavior_witness :
    NewStorage sdkOk cfgUnknown = Storage.empty [] ∧
    EmptyStorage.uploadFile ⟨str "why"⟩ (str "/p") (str "f") =
      .error (str "storage service not configured or initialization failed. why") := by
  have h := newStorage_default_and_empty_behavior sdkOk cfgUnknown (by decide)
  exact ⟨h.1, (h.2 (str "why") (str "/p") (str "f")).1⟩

/-- Claim C4: the S3 backend is constructible with empty bucket name and
empty credentials (the router keeps the S3 client, given that the external
SDK configuration load succeeds), while the Qiniu backend with an empty
custom domain always fails construction, and — when the domain is the field
at fault — the router substitutes the Empty backend whose diagnostic reason
mentions the missing domain. -/
theorem s3_constructible_qiniu_domain_required
    (scfg : S3Config) (hb : scfg.bucketName = []) (ha : scfg.accessKeyID = [])
    (hs : scfg.secretKey = []) (qcfg : QiniuConfig) (hd : qcfg.domain = []) :
    (∃ c, NewS3Client none scfg = .ok c ∧
          initS3StorageWithConfig none scfg = .s3 c) ∧
    (∃ e, NewQiniuClient qcfg = .error e) ∧
    (qcfg.accessKey ≠ [] → qcfg.secretKey ≠ [] → qcfg.bucketName ≠ [] →
      initQiniuStorageWithConfig qcfg =
        .empty (str "domain cannot be empty, Qiniu requires a custom domain for access") ∧
      str "domain" <:+:
        str "domain cannot be empty, Qiniu requires a custom domain for access") := by
  refine ⟨⟨_, rfl, rfl⟩, ?_, ?_⟩
  · by_cases h1 : qcfg.accessKey = [] ∨ qcfg.secretKey = []
    · exact ⟨_, by unfold NewQiniuClient; rw [if_pos h1]⟩
    · by_cases h2 : qcfg.bucketName = []
      · exact ⟨_, by unfold NewQiniuClient; rw [if_neg h1, if_pos h2]⟩
      · exact ⟨_, by unfold NewQiniuClient; rw [if_neg h1, if_neg h2, if_pos hd]⟩
  · intro hak hsk hbk
    constructor
    · unfold initQiniuStorageWithConfig NewQiniuClient
      rw [if_neg (by exact fun hc => hc.elim hak hsk), if_neg hbk, if_pos hd]
    · exact ⟨[], str " cannot be empty, Qiniu requires a custom domain for access",
             rfl⟩

/-- Witness for C4 at concrete configurations. -/
theorem s3_constructible_qiniu_domain_required_witness :
    initS3StorageWithConfig none ⟨[], [], [], [], [], [], 0⟩ =
      .s3 ⟨[], [], [], [], [], 604800⟩ ∧
    initQiniuStorageWithConfig ⟨str "ak", str "sk", str "b", [], str "z0", 0⟩ =
      .empty (str "domain cannot be empty, Qiniu requires a custom domain for access") := by
  have h := s3_constructible_qiniu_domain_required ⟨[], [], [], [], [], [], 0⟩
    rfl rfl rfl ⟨str "ak", str "sk", str "b", [], str "z0", 0⟩ rfl
  have h3 := h.2.2 (by decide) (by decide) (by decide)
  obtain ⟨c, hc1, hc2⟩ := h.1
  have hval : NewS3Client none (⟨[], [], [], [], [], [], 0⟩ : S3Config) =
      .ok ⟨[], [], [], [], [], 604800⟩ := rfl
  rw [hval] at hc1
  injection hc1 with hcv
  rw [← hcv] at hc2
  exact ⟨hc2, h3.1⟩

/-- A batch whose elements all validate successfully yields exactly the
per-element absolute paths, in order. -/
theorem validatePaths_ok_all (fs : FSEnv) (g : Str → Str) :
    ∀ paths, (∀ q ∈ paths, validateOne fs q = .ok (g q)) →
      ValidatePaths fs paths = .ok (paths.map g) := by
  intro paths
  induction paths with
  | nil => intro _; rfl
  | cons p rest ih =>
    intro h
    have hp := h p (List.mem_cons_self p rest)
    have hrest := ih fun q hq => h q (List.mem_cons_of_mem p hq)
    simp only [ValidatePaths, hp, hrest, List.map_cons]

/-- The first failing element aborts the whole batch with its own error,
regardless of what follows it. -/
theorem validatePaths_failfast (fs : FSEnv) :
    ∀ pre p suf e, (∀ q ∈ pre, ∃ a, validateOne fs q = .ok a) →
      validateOne fs p = .error e →
      ValidatePaths fs (pre ++ p :: suf) = .error e := by
  intro pre
  induction pre with
  | nil =>
    intro p suf e _ hp
    simp only [List.nil_append, ValidatePaths, hp]
  | cons q pre ih =>
    intro p suf e hpre hp
    obtain ⟨a, ha⟩ := hpre q (List.mem_cons_self q pre)
    have hrec := ih p suf e (fun x hx => hpre x (List.mem_cons_of_mem q hx)) hp
    simp only [List.cons_append, ValidatePaths, ha, List.append_eq, hrec]

/-- Claim C5: ValidatePaths rejects an empty string, a path whose stat fails,
and a path naming a directory, each with a distinct non-empty error; any
single rejection aborts the whole batch with exactly that error; and when no
element is rejected it returns one absolute path per input, in order. -/
theorem validatePaths_spec (fs : FSEnv) :
    validateOne fs [] = .error (str "path cannot be empty") ∧
    (∀ p a e, fs.abs p = .ok a → fs.stat a = .error e → p ≠ [] →
      validateOne fs p = .error (str "invalid path: " ++ e)) ∧
    (∀ p a, fs.abs p = .ok a → fs.stat a = .ok { isDir := true } → p ≠ [] →
      validateOne fs p = .error (str "path cannot be a directory")) ∧
    (str "path cannot be empty" ≠ [] ∧ str "path cannot be a directory" ≠ [] ∧
     str "path cannot be empty" ≠ str "path cannot be a directory" ∧
     ∀ e : Str, str "invalid path: " ++ e ≠ [] ∧
       str "invalid path: " ++ e ≠ str "path cannot be empty" ∧
       str "invalid path: " ++ e ≠ str "path cannot be a directory") ∧
    (∀ pre p suf e, (∀ q ∈ pre, ∃ a, validateOne fs q = .ok a) →
      validateOne fs p = .error e →
      ValidatePaths fs (pre ++ p :: suf) = .error e) ∧
    (∀ paths (g : Str → Str), (∀ q ∈ paths, validateOne fs q = .ok (g q)) →
      ValidatePaths fs paths = .ok (paths.map g) ∧
      (paths.map g).length = paths.length) := by
  refine ⟨rfl, ?_, ?_, ?_, validatePaths_failfast fs, ?_⟩
  · intro p a e habs hstat hp
    simp only [validateOne, if_neg hp, habs, hstat]
  · intro p a habs hstat hp
    simp only [validateOne, if_neg hp, habs, hstat]
    exact if_pos trivial
  · refine ⟨by decide, by decide, by decide, fun e => ⟨?_, ?_, ?_⟩⟩
    · intro h
      have h' : 'i' :: (str "nvalid path: " ++ e) = [] := h
      exact List.noConfusion h'
    · intro h
      have h' : 'i' :: (str "nvalid path: " ++ e) =
          'p' :: str "ath cannot be empty" := h
      injection h' with h1 _
      exact absurd h1 (by decide)
    · intro h
      have h' : 'i' :: (str "nvalid path: " ++ e) =
          'p' :: str "ath cannot be a directory" := h
      injection h' with h1 _
      exact absurd h1 (by decide)
  · intro paths g h
    exact ⟨validatePaths_ok_all fs g paths h, List.length_map paths g⟩

/-- A concrete filesystem for the C5 witness: absolutization prepends "/w/";
"/w/f" is a file, "/w/d" a directory, everything else does not exist. -/
def fsW : FSEnv :=
  { abs := fun p => .ok (str "/w/" ++ p),
    stat := fun a =>
      if a = str "/w/f" then .ok { isDir := false }
      else if a = str "/w/d" then .ok { isDir := true }
      else .error (str "no such file or directory") }

/-- Witness for C5: the empty string aborts a batch after a passing element,
and an all-passing batch maps to its absolute paths. -/
theorem validatePaths_spec_witness :
    ValidatePaths fsW [str "f", [], str "x"] = .error (str "path cannot be empty") ∧
    ValidatePaths fsW [str "f"] = .ok [str "/w/f"] := by
  have h := validatePaths_spec fsW
  constructor
  · refine h.2.2.2.2.1 [str "f"] [] [str "x"] _ ?_ h.1
    intro q hq
    simp only [List.mem_singleton] at hq
    subst hq
    exact ⟨str "/w/f", rfl⟩
  · have := (h.2.2.2.2.2 [str "f"] (fun p => str "/w/" ++ p) ?_).1
    · exact this
    · intro q hq
      simp only [List.mem_singleton] at hq
      subst hq
      rfl

/-- Claim C8: when clipboard resolution completes in time with zero paths,
the handler returns a successful result carrying the explicit "no files
found" text, reaches neither validation nor any backend upload. -/
theorem uploadClipboardFiles_empty_clipboard (w : ClipUploadWorld)
    (h : w.clip = .ok []) :
    handleUploadClipboardFiles w =
      (.ok (str "No files found in clipboard."), false, []) := by
  simp only [handleUploadClipboardFiles, h]
  rfl

/-- A world for the C8 witness: an empty clipboard over the witness
filesystem, with an upload oracle that would fail if it were ever reached. -/
def clipEmptyWorld : ClipUploadWorld :=
  { clip := .ok [], fs := fsW, upload := fun _ => .error (str "unreachable") }

/-- Witness for C8. -/
theorem uploadClipboardFiles_empty_clipboard_witness :
    handleUploadClipboardFiles clipEmptyWorld =
      (.ok (str "No files found in clipboard."), false, []) :=
  uploadClipboardFiles_empty_clipboard clipEmptyWorld rfl

/-- Claim C6: when the deadline elapses before the underlying clipboard unit
of work completes, GetFiles returns the platform's timeout-specific error and
never any (partial or empty) path list: shown for the Linux select-based
resolver and the macOS osascript-based resolver. -/
theorem clipboard_timeout_error (lenv : LinuxClip) (denv : DarwinEnv) :
    linuxGetFiles lenv .deadline = .error (str "获取文件路径超时") ∧
    (∀ l, linuxGetFiles lenv .deadline ≠ .ok l) ∧
    darwinGetFiles denv true = .error (str "查找文件超时") ∧
    (∀ l, darwinGetFiles denv true ≠ .ok l) := by
  refine ⟨rfl, ?_, rfl, ?_⟩
  · intro l hl
    rw [show linuxGetFiles lenv .deadline = .error (str "获取文件路径超时") from rfl] at hl
    exact Except.noConfusion hl
  · intro l hl
    rw [show darwinGetFiles denv true = .error (str "查找文件超时") from rfl] at hl
    exact Except.noConfusion hl

/-- If the pattern does not occur in the string, the fuelled replacement is
the identity. -/
theorem replaceAllAux_not_contains (pat rep : Str) :
    ∀ fuel s, containsSub pat s = false → replaceAllAux pat rep fuel s = s := by
  intro fuel
  induction fuel with
  | zero => intro s _; rfl
  | succ n ih =>
    intro s h
    cases s with
    | nil => rfl
    | cons c rest =>
      simp only [containsSub, Bool.or_eq_false_iff] at h
      simp only [replaceAllAux, h.1, Bool.false_eq_true, if_false]
      exact congrArg (c :: ·) (ih rest h.2)

/-- Model of the fact that strings.ReplaceAll leaves a string without any
occurrence of the pattern unchanged. -/
theorem replaceAll_not_contains (s pat rep : Str)
    (h : containsSub pat s = false) : replaceAll s pat rep = s := by
  unfold replaceAll
  split
  · rfl
  · exact replaceAllAux_not_contains pat rep s.length s h

/-- Counterexample to claim C2: recognized-token text inside the file's base
name does not appear verbatim in the output — the base name "a{ext}" of
"a{ext}.txt" is expanded by the later {ext} pass, yielding "a.txt". -/
theorem formatObjectKey_expands_injected_token :
    FormatObjectKey (str "a{ext}.txt") (str "{filename}") (str "1") (str "u")
      (str "rrrrrr") = str "a.txt" ∧
    str "a.txt" ≠ str "a{ext}" ∧
    containsSub (str "{ext}")
      (FormatObjectKey (str "a{ext}.txt") (str "{filename}") (str "1") (str "u")
        (str "rrrrrr")) = false := by decide

/-- Claim C2 (amended): FormatObjectKey applies the five replacements
sequentially in the fixed source order {filename}, {ext}, {timestamp},
{uuid}, {rand}; recognized-token text introduced by the {filename} expansion
is expanded by the later passes (for every timestamp/uuid/rand value), and a
non-empty template containing no recognized token is passed through
verbatim. -/
theorem formatObjectKey_sequential_replacement :
    (∀ ts u r : Str,
      FormatObjectKey (str "a{ext}.txt") (str "{filename}") ts u r = str "a.txt") ∧
    (∀ filename format ts u r : Str, format ≠ [] →
      containsSub (str "{filename}") format = false →
      containsSub (str "{ext}") format = false →
      containsSub (str "{timestamp}") format = false →
      containsSub (str "{uuid}") format = false →
      containsSub (str "{rand}") format = false →
      FormatObjectKey filename format ts u r = format) := by
  constructor
  · intro ts u r
    simp only [FormatObjectKey]
    rw [if_neg (by decide)]
    have e2 : replaceAll (replaceAll (str "{filename}") (str "{filename}")
        (trimSuffix (str "a{ext}.txt") (goExt (str "a{ext}.txt"))))
        (str "{ext}") (goExt (str "a{ext}.txt")) = str "a.txt" := by decide
    rw [e2, replaceAll_not_contains (str "a.txt") (str "{timestamp}") ts (by decide),
        replaceAll_not_contains (str "a.txt") (str "{uuid}") u (by decide),
        replaceAll_not_contains (str "a.txt") (str "{rand}") r (by decide)]
  · intro filename format ts u r hne h1 h2 h3 h4 h5
    simp only [FormatObjectKey]
    rw [if_neg hne,
        replaceAll_not_contains format (str "{filename}") _ h1,
        replaceAll_not_contains format (str "{ext}") _ h2,
        replaceAll_not_contains format (str "{timestamp}") ts h3,
        replaceAll_not_contains format (str "{uuid}") u h4,
        replaceAll_not_contains format (str "{rand}") r h5]

/-- Witness for the amended C2: the injected-token expansion at concrete
randomized values, and verbatim pass-through of a token-free template. -/
theorem formatObjectKey_sequential_replacement_witness :
    FormatObjectKey (str "a{ext}.txt") (str "{filename}") (str "7") (str "u1")
      (str "abc123") = str "a.txt" ∧
    FormatObjectKey (str "x.png") (str "key-") (str "7") (str "u1")
      (str "abc123") = str "key-" :=
  ⟨formatObjectKey_sequential_replacement.1 (str "7") (str "u1") (str "abc123"),
   formatObjectKey_sequential_replacement.2 (str "x.png") (str "key-") (str "7")
     (str "u1") (str "abc123") (by decide) rfl rfl rfl rfl rfl⟩

/-- A Linux clipboard in which the URI-list format is present (xclip
succeeds with non-empty output) but yields no file:// path, while the
plain-text tier holds a rooted path that exists. -/
def cexLinuxClip : LinuxClip :=
  { xclipUri := .ok (str "# comment"), wlUri := .error (),
    xclipText := .ok (str "/etc/hostname"), xselText := .error (),
    wlText := .error (), home := .error (), statOk := fun _ => true }

/-- Counterexample to claim C3: on Linux, with the file-reference (URI-list)
format present but its extracted path list empty, GetFiles does fall through
to the plain-text heuristic and returns a text-derived path instead of the
(empty) list derived from the file references. -/
theorem linux_falls_through_on_empty_uri_extraction :
    cexLinuxClip.xclipUri = .ok (str "# comment") ∧ str "# comment" ≠ [] ∧
    extractUriPaths (trimSpace (str "# comment")) = [] ∧
    linuxGetFiles cexLinuxClip .completed = .ok [str "/etc/hostname"] ∧
    [str "/etc/hostname"] ≠ ([] : List Str) := by
  refine ⟨rfl, by decide, by decide, ?_, by decide⟩
  rfl

/-- Claim C3 (amended): on Windows the presence of the native CF_HDROP
format is authoritative — GetFiles returns exactly its path list (possibly
empty) and never reaches the text heuristic; on Linux the URI-list tier is
authoritative only when at least one file:// path is extracted from it, and
otherwise resolution falls through to the plain-text heuristic. -/
theorem clipboard_file_reference_tiers
    (wenv : WinClip) (lenv : LinuxClip) (out : Str) :
    (wenv.openOk = true → wenv.hdropAvailable = true →
      wenv.hdropHandleOk = true → wenv.hdropLockOk = true →
      windowsBody wenv = .ok wenv.hdropPaths) ∧
    (lenv.xclipUri = .ok out → out ≠ [] →
      (extractUriPaths (trimSpace out) ≠ [] →
        linuxBody lenv = extractUriPaths (trimSpace out)) ∧
      (extractUriPaths (trimSpace out) = [] →
        linuxBody lenv = linuxTextFallback lenv)) := by
  constructor
  · intro h1 h2 h3 h4
    simp only [windowsBody, h1, h2, h3, h4, Bool.not_true, Bool.false_eq_true,
      if_false, if_true]
  · intro hx hout
    simp only [linuxBody, hx, if_pos hout]
    by_cases ht : trimSpace out = []
    · constructor
      · intro hne
        exfalso
        apply hne
        rw [ht]
        rfl
      · intro _
        rw [if_neg (by exact fun hc => hc ht)]
    · rw [if_pos ht]
      constructor
      · intro hne
        rw [if_pos hne]
      · intro heq
        rw [if_neg (by exact fun hc => hc heq)]

/-- A Windows clipboard holding one CF_HDROP file reference (and unrelated
text), for the C3 witness. -/
def winHdropClip : WinClip :=
  { openOk := true, hdropAvailable := true, hdropHandleOk := true,
    hdropLockOk := true, hdropPaths := [str "C:\\a.txt"],
    textAvailable := true, textHandleOk := true, textLockOk := true,
    text := str "C:\\b.txt", statOk := fun _ => true }

/-- A Linux clipboard holding one file:// URI with an encoded space, for the
C3 witness. -/
def linUriClip : LinuxClip :=
  { xclipUri := .ok (str "file:///tmp/x%20y"), wlUri := .error (),
    xclipText := .error (), xselText := .error (), wlText := .error (),
    home := .error (), statOk := fun _ => true }

/-- Witness for the amended C3. -/
theorem clipboard_file_reference_tiers_witness :
    windowsBody winHdropClip = .ok [str "C:\\a.txt"] ∧
    linuxBody linUriClip = [str "/tmp/x y"] := by
  have h := clipboard_file_reference_tiers winHdropClip linUriClip
    (str "file:///tmp/x%20y")
  refine ⟨h.1 rfl rfl rfl rfl, ?_⟩
  have h2 := (h.2 rfl (by decide)).1 (by decide)
  rw [h2]
  decide

/-- A created-event never occurs among removal events. -/
theorem not_created_mem_map_removed (j : Nat) (l : List Nat) :
    Ev.created j ∉ l.map Ev.removed := by
  intro h
  obtain ⟨x, _, hx⟩ := List.mem_map.mp h
  exact Ev.noConfusion hx

/-- `precedesB created got` holds vacuously on a pure removal suffix. -/
theorem precedesB_map_removed (j : Nat) (l : List Nat) :
    precedesB (Ev.created j) (Ev.got j) (l.map Ev.removed) = true := by
  induction l with
  | nil => rfl
  | cons x l ih =>
    simp only [List.map_cons, precedesB]
    rw [if_neg (fun hc => Ev.noConfusion hc), if_neg (fun hc => Ev.noConfusion hc)]
    exact ih

/-- In an exit trace of the i-th iteration (its creation and transfer events
followed by all pending removals), every created temp file is removed. -/
theorem removed_mem_exit_trace (i j : Nat) (defers : List Nat)
    (h : Ev.created j ∈ Ev.created i :: Ev.got i :: (i :: defers).map Ev.removed ∨
         j ∈ defers) :
    Ev.removed j ∈ Ev.created i :: Ev.got i :: (i :: defers).map Ev.removed := by
  rcases h with h | h
  · rcases List.mem_cons.mp h with hc | h'
    · injection hc with hji
      subst hji
      exact List.mem_cons_of_mem _ (List.mem_cons_of_mem _
        (List.mem_map_of_mem Ev.removed (List.mem_cons_self j defers)))
    · rcases List.mem_cons.mp h' with hc | h''
      · exact absurd hc (fun hc => Ev.noConfusion hc)
      · exact absurd h'' (not_created_mem_map_removed j (i :: defers))
  · exact List.mem_cons_of_mem _ (List.mem_cons_of_mem _
      (List.mem_map_of_mem Ev.removed (List.mem_cons_of_mem i h)))

/-- One-step unfolding of `precedesB`. -/
theorem precedesB_cons (a b e : Ev) (tr : List Ev) :
    precedesB a b (e :: tr) =
      if e = b then false else if e = a then true else precedesB a b tr := rfl

/-- In an exit trace of the i-th iteration, the creation of its temp file
precedes its transfer event. -/
theorem precedesB_exit_trace (i j : Nat) (defers : List Nat) :
    precedesB (Ev.created j) (Ev.got j)
      (Ev.created i :: Ev.got i :: (i :: defers).map Ev.removed) = true := by
  by_cases hji : j = i
  · subst hji
    rw [precedesB_cons, if_neg (fun hc => Ev.noConfusion hc), if_pos rfl]
  · rw [precedesB_cons, if_neg (fun hc => Ev.noConfusion hc),
        if_neg (by intro hc; injection hc with h'; exact hji h'.symm),
        precedesB_cons,
        if_neg (by intro hc; injection hc with h'; exact hji h'.symm),
        if_neg (fun hc => Ev.noConfusion hc)]
    exact precedesB_map_removed j (i :: defers)

/-- Every temp file created during the URL loop — and every temp file whose
removal was already pending — has a removal event in the loop's trace. -/
theorem runUrlLoop_removed (w : UrlWorld) :
    ∀ urls i defers j,
      Ev.created j ∈ (runUrlLoop w urls i defers).2 ∨ j ∈ defers →
      Ev.removed j ∈ (runUrlLoop w urls i defers).2 := by
  intro urls
  induction urls with
  | nil =>
    intro i defers j h
    simp only [runUrlLoop] at h ⊢
    rcases h with h | h
    · exact absurd h (not_created_mem_map_removed j defers)
    · exact List.mem_map_of_mem Ev.removed h
  | cons url rest ih =>
    intro i defers j h
    simp only [runUrlLoop] at h ⊢
    cases hct : w.createTempErr i with
    | some e =>
      simp only [hct] at h ⊢
      rcases h with h | h
      · exact absurd h (not_created_mem_map_removed j defers)
      · exact List.mem_map_of_mem Ev.removed h
    | none =>
      simp only [hct] at h ⊢
      cases hget : w.getResult i with
      | error e =>
        simp only [hget] at h ⊢
        exact removed_mem_exit_trace i j defers h
      | ok status =>
        simp only [hget] at h ⊢
        by_cases hs : status = 200
        · rw [if_neg (not_not_intro hs)] at h ⊢
          cases hcp : w.copyErr i with
          | some e =>
            simp only [hcp] at h ⊢
            exact removed_mem_exit_trace i j defers h
          | none =>
            simp only [hcp] at h ⊢
            cases hup : w.uploadResult i with
            | error e =>
              simp only [hup] at h ⊢
              exact removed_mem_exit_trace i j defers h
            | ok u =>
              simp only [hup] at h ⊢
              rcases hrec : runUrlLoop w rest (i + 1) (i :: defers) with ⟨r, tr⟩
              simp only [hrec] at h ⊢
              have ihj := ih (i + 1) (i :: defers) j
              rw [hrec] at ihj
              rcases h with h | h
              · rcases List.mem_cons.mp h with hc | h'
                · injection hc with hji
                  subst hji
                  exact List.mem_cons_of_mem _ (List.mem_cons_of_mem _
                    (ihj (Or.inr (List.mem_cons_self j defers))))
                · rcases List.mem_cons.mp h' with hc | h''
                  · exact absurd hc (fun hc => Ev.noConfusion hc)
                  · exact List.mem_cons_of_mem _ (List.mem_cons_of_mem _
                      (ihj (Or.inl h'')))
              · exact List.mem_cons_of_mem _ (List.mem_cons_of_mem _
                  (ihj (Or.inr (List.mem_cons_of_mem i h))))
        · rw [if_pos hs] at h ⊢
          exact removed_mem_exit_trace i j defers h

/-- In the URL loop's trace, the creation of each iteration's temp file
precedes that iteration's transfer event. -/
theorem runUrlLoop_precedes (w : UrlWorld) :
    ∀ urls i defers j,
      precedesB (Ev.created j) (Ev.got j) (runUrlLoop w urls i defers).2 = true := by
  intro urls
  induction urls with
  | nil =>
    intro i defers j
    simp only [runUrlLoop]
    exact precedesB_map_removed j defers
  | cons url rest ih =>
    intro i defers j
    simp only [runUrlLoop]
    split
    · exact precedesB_map_removed j defers
    split
    · exact precedesB_exit_trace i j defers
    split
    · exact precedesB_exit_trace i j defers
    split
    · exact precedesB_exit_trace i j defers
    split
    · exact precedesB_exit_trace i j defers
    · rcases hrec : runUrlLoop w rest (i + 1) (i :: defers) with ⟨r, tr⟩
      show precedesB (Ev.created j) (Ev.got j)
        (Ev.created i :: Ev.got i :: tr) = true
      by_cases hji : j = i
      · subst hji
        rw [precedesB_cons, if_neg (fun hc => Ev.noConfusion hc), if_pos rfl]
      · rw [precedesB_cons, if_neg (fun hc => Ev.noConfusion hc),
            if_neg (by intro hc; injection hc with h'; exact hji h'.symm),
            precedesB_cons,
            if_neg (by intro hc; injection hc with h'; exact hji h'.symm),
            if_neg (fun hc => Ev.noConfusion hc)]
        have htail := ih (i + 1) (i :: defers) j
        rw [hrec] at htail
        exact htail

/-- Claim C7: across every world and URL batch, each temporary file created
for a URL download is created before that URL's network transfer begins, and
every created temporary file has been removed by the time the call returns,
on every exit path. -/
theorem uploadUrlFiles_temp_scoped (w : UrlWorld) (urls : List Str) :
    (∀ j, Ev.created j ∈ (handleUploadUrlFiles w urls).2 →
      Ev.removed j ∈ (handleUploadUrlFiles w urls).2) ∧
    (∀ j, precedesB (Ev.created j) (Ev.got j) (handleUploadUrlFiles w urls).2 = true) := by
  unfold handleUploadUrlFiles
  split
  · constructor
    · intro j h
      exact absurd h (List.not_mem_nil _)
    · intro j
      rfl
  · exact ⟨fun j h => runUrlLoop_removed w urls 0 [] j (Or.inl h),
           fun j => runUrlLoop_precedes w urls 0 [] j⟩

/-- The shared key-substitution fact: the substituted key is the UUID exactly
when the formatted filename is empty, and is never empty itself. -/
theorem keySubst_spec (filename uuid : Str) (hu : uuid ≠ []) :
    (if filename.length = 0 then uuid else filename) ≠ [] ∧
    (filename = [] → (if filename.length = 0 then uuid else filename) = uuid) ∧
    (filename ≠ [] → (if filename.length = 0 then uuid else filename) = filename) := by
  by_cases h : filename = []
  · subst h
    exact ⟨by simpa using hu, fun _ => rfl, fun hne => absurd rfl hne⟩
  · have hl : filename.length ≠ 0 := fun hc => h (List.length_eq_zero.mp hc)
    rw [if_neg hl]
    exact ⟨h, fun hc => absurd hc h, fun _ => rfl⟩

/-- Claim C10: for the S3, Qiniu and GitHub adapters (both the from-path and
from-stream operations), an empty formatted filename is replaced by the
freshly generated UUID as the object key (for GitHub, as the stored
filename), and — the UUID string being non-empty — no put request is ever
attempted with an empty key. -/
theorem upload_key_uuid_substitution
    (s : S3Client) (q : QiniuClient) (g : GitHubClient)
    (filename uuid : Str) (hu : uuid ≠ []) :
    (∀ openErr req, S3Client.uploadFilePut s openErr filename uuid = .ok req →
      req.key ≠ [] ∧ (filename = [] → req.key = uuid) ∧
      (filename ≠ [] → req.key = filename)) ∧
    ((S3Client.uploadPut s filename uuid).key ≠ [] ∧
     (filename = [] → (S3Client.uploadPut s filename uuid).key = uuid) ∧
     (filename ≠ [] → (S3Client.uploadPut s filename uuid).key = filename)) ∧
    ((QiniuClient.uploadFilePut q filename uuid).key ≠ [] ∧
     (filename = [] → (QiniuClient.uploadFilePut q filename uuid).key = uuid) ∧
     (filename ≠ [] → (QiniuClient.uploadFilePut q filename uuid).key = filename)) ∧
    (∀ readErr req, QiniuClient.uploadPut q readErr filename uuid = .ok req →
      req.key ≠ [] ∧ (filename = [] → req.key = uuid) ∧
      (filename ≠ [] → req.key = filename)) ∧
    (∀ readErr req, GitHubClient.uploadFileReq g readErr filename uuid = .ok req →
      req.storedFilename ≠ [] ∧ (filename = [] → req.storedFilename = uuid) ∧
      (filename ≠ [] → req.storedFilename = filename)) ∧
    (∀ readErr req, GitHubClient.uploadReq g readErr filename uuid = .ok req →
      req.storedFilename ≠ [] ∧ (filename = [] → req.storedFilename = uuid) ∧
      (filename ≠ [] → req.storedFilename = filename)) := by
  have hk := keySubst_spec filename uuid hu
  refine ⟨?_, hk, hk, ?_, ?_, ?_⟩
  · intro openErr req h
    cases openErr with
    | some e => exact Except.noConfusion h
    | none =>
      injection h with h'
      rw [← h']
      exact hk
  · intro readErr req h
    cases readErr with
    | some e => exact Except.noConfusion h
    | none =>
      injection h with h'
      rw [← h']
      exact hk
  · intro readErr req h
    cases readErr with
    | some e => exact Except.noConfusion h
    | none =>
      injection h with h'
      rw [← h']
      exact hk
  · intro readErr req h
    cases readErr with
    | some e => exact Except.noConfusion h
    | none =>
      injection h with h'
      rw [← h']
      exact hk

/-- Witness for C10 with an empty formatted filename and a concrete
36-character UUID. -/
theorem upload_key_uuid_substitution_witness :
    (S3Client.uploadPut ⟨[], [], [], [], [], 604800⟩ []
      (str "123e4567-e89b-12d3-a456-426614174000")).key =
      str "123e4567-e89b-12d3-a456-426614174000" ∧
    (QiniuClient.uploadFilePut ⟨[], [], [], [], [], 604800⟩ []
      (str "123e4567-e89b-12d3-a456-426614174000")).key ≠ [] := by
  have h := upload_key_uuid_substitution ⟨[], [], [], [], [], 604800⟩
    ⟨[], [], [], [], [], 604800⟩ ⟨[], [], [], [], [], []⟩ []
    (str "123e4567-e89b-12d3-a456-426614174000") (by decide)
  exact ⟨h.2.1.2.1 rfl, h.2.2.1.1⟩

/-- A macOS environment for the C6 witness. -/
def darwinW : DarwinEnv := { runErr := none, stderrText := [], stdout := [] }

/-- Witness for C6 at concrete environments. -/
theorem clipboard_timeout_error_witness :
    linuxGetFiles cexLinuxClip .deadline = .error (str "获取文件路径超时") ∧
    darwinGetFiles darwinW true = .error (str "查找文件超时") := by
  have h := clipboard_timeout_error cexLinuxClip darwinW
  exact ⟨h.1, h.2.2.1⟩

/-- A URL-upload world for the C7 witness in which every step succeeds. -/
def urlWorldW : UrlWorld :=
  { createTempErr := fun _ => none, getResult := fun _ => .ok 200,
    copyErr := fun _ => none, uploadResult := fun _ => .ok (str "https://x") }

/-- Witness for C7 at a concrete single-URL batch. -/
theorem uploadUrlFiles_temp_scoped_witness :
    Ev.removed 0 ∈ (handleUploadUrlFiles urlWorldW [str "https://a"]).2 ∧
    precedesB (Ev.created 0) (Ev.got 0)
      (handleUploadUrlFiles urlWorldW [str "https://a"]).2 = true := by
  have h := uploadUrlFiles_temp_scoped urlWorldW [str "https://a"]
  exact ⟨h.1 0 (by decide), h.2 0⟩

end FSMcp
